import Mathlib

/-!
# An in-memory task service (`main.go`)

A shallow embedding of the HTTP task service: the `Task` record, the global
store (`tasks`, `nextID`), the five store handlers, the two route handlers and
the route table registered by `main`.

Modelling conventions.

* Go's `int` is the 64-bit signed integer (its size on 64-bit platforms),
  modelled by `Int` with the wrap-around of its arithmetic made explicit
  (`wrapInt`).  The only arithmetic in the program is `nextID++`.
* The map `tasks` is a finite association list without duplicate keys
  (`AList`).  The order in which `range` visits a map is not specified by Go;
  it is a parameter (`RangeOrder`) of every call that iterates.
* A handler is a function from the store (and the request) to the response
  written and the store left behind: the sequential execution of its body.
  The mutex enters through the critical sections it delimits; `updateTask`
  is the only handler with two of them (`updateTaskInterleaved`).
* `encoding/json`, `strconv.Atoi` and `http.ServeMux` are library code; they
  are modelled by their documented behaviour on the inputs this program
  gives them.
-/

namespace RestApi

/-! ## Data model -/

/-- Task: the record of `main.go` (`ID`, `Name`, `Done`). -/
structure Task where
  ID : Int
  Name : String
  Done : Bool
deriving DecidableEq, Repr

/-- The type of the global `tasks`: `map[int]Task`. -/
abbrev TaskMap := AList (fun _ : Int => Task)

/-- The global variables `tasks` and `nextID`. -/
structure Store where
  tasks : TaskMap
  nextID : Int
deriving DecidableEq

/-- Go's `len(m)` for a map. -/
def TaskMap.len (m : TaskMap) : Nat := m.entries.length

/-- The tasks held by a map, one per key, in the order of the representation. -/
def TaskMap.values (m : TaskMap) : List Task := m.entries.map (fun e => e.2)

/-- One choice of the order in which `range` visits the entries of a map:
    any rearrangement of the entries. -/
structure RangeOrder where
  visit : List (Sigma fun _ : Int => Task) → List (Sigma fun _ : Int => Task)
  perm : ∀ l, (visit l).Perm l

/-- Visit the entries in the order of the representation. -/
def RangeOrder.stored : RangeOrder := ⟨fun l => l, fun l => List.Perm.refl l⟩

/-- Visit the entries in the opposite order. -/
def RangeOrder.reversed : RangeOrder := ⟨List.reverse, List.reverse_perm⟩

/-! ## Requests and responses -/

/-- What `json.NewDecoder(r.Body).Decode(&task)` makes of a request body:
    either it fails with an error message, or the body holds a JSON value
    that decodes into a `Task`, in which each of the three fields is present
    or absent. -/
inductive Body
  | malformed (err : String)
  | object (id : Option Int) (name : Option String) (done : Option Bool)
deriving DecidableEq

/-- Decoding into a zero-valued `Task` (`var task Task`): a field that is
    absent from the body keeps its zero value. -/
def decodeTask : Body → Except String Task
  | .malformed err => .error err
  | .object id name done =>
      .ok { ID := id.getD 0, Name := name.getD "", Done := done.getD false }

/-- The parts of `*http.Request` the handlers read. -/
structure Request where
  method : String
  path : String
  body : Body
deriving DecidableEq

/-- A Go slice of tasks; `none` is the nil slice. -/
abbrev TaskSlice := Option (List Task)

/-- The slice `make([]Task, 0, n)`: empty and not nil. -/
def makeSlice (_n : Nat) : TaskSlice := some []

/-- Go's `append(s, t)`. -/
def appendSlice : TaskSlice → Task → TaskSlice
  | none, t => some [t]
  | some l, t => some (l ++ [t])

/-- What a handler wrote as the body of its response. -/
inductive Payload
  | empty
  | text (msg : String)
  | jsonTask (t : Task)
  | jsonArray (l : List Task)
  | jsonNull
deriving DecidableEq

/-- The value `json.NewEncoder(w).Encode(taskList)` writes for a slice: a nil
    slice is encoded as `null`, any other slice as an array. -/
def encodeSlice : TaskSlice → Payload
  | none => .jsonNull
  | some l => .jsonArray l

/-- What a handler wrote to its `http.ResponseWriter`. -/
structure Response where
  status : Nat
  contentType : Option String
  body : Payload
deriving DecidableEq

def StatusOK : Nat := 200
def StatusCreated : Nat := 201
def StatusNoContent : Nat := 204
def StatusBadRequest : Nat := 400
def StatusNotFound : Nat := 404
def StatusMethodNotAllowed : Nat := 405

def MethodGet : String := "GET"
def MethodPost : String := "POST"
def MethodPut : String := "PUT"
def MethodDelete : String := "DELETE"

/-- The response of `http.Error(w, msg, code)`. -/
def httpError (msg : String) (code : Nat) : Response :=
  { status := code, contentType := some "text/plain; charset=utf-8", body := .text msg }

/-- A response whose header `Content-Type` was set to `application/json` and
    whose body is the encoding of `p`. -/
def jsonResponse (code : Nat) (p : Payload) : Response :=
  { status := code, contentType := some "application/json", body := p }

/-! ## `strconv.Atoi` -/

/-- The value of a decimal digit, `none` for any other character. -/
def digitVal (c : Char) : Option Nat :=
  if '0' ≤ c ∧ c ≤ '9' then some (c.toNat - '0'.toNat) else none

/-- The number written by a string of decimal digits, most significant first;
    `none` when a character is not a digit. -/
def parseDigits : List Char → Nat → Option Nat
  | [], acc => some acc
  | c :: cs, acc =>
      match digitVal c with
      | none => none
      | some d => parseDigits cs (acc * 10 + d)

/-- The function `strconv.Atoi` for a 64-bit `int`: an optional sign followed
    by at least one decimal digit, denoting a value `-2^63 ≤ n < 2^63`;
    `none` stands for the error result. -/
def Atoi (s : String) : Option Int :=
  let body : List Char :=
    match s.data with
    | '-' :: cs => cs
    | '+' :: cs => cs
    | cs => cs
  let neg : Bool :=
    match s.data with
    | '-' :: _ => true
    | _ => false
  if body.isEmpty then none
  else
    match parseDigits body 0 with
    | none => none
    | some n =>
        let v : Int := if neg then -(n : Int) else (n : Int)
        if -(2 : Int) ^ 63 ≤ v ∧ v < (2 : Int) ^ 63 then some v else none

/-! ## Arithmetic of `int` -/

/-- The smallest `int`, `-2^63`. -/
def minInt : Int := -9223372036854775808

/-- The largest `int`, `2^63 - 1`. -/
def maxInt : Int := 9223372036854775807

/-- The `int` that stands for the integer `x` after an operation on `int`:
    the value between `minInt` and `maxInt` that differs from `x` by a
    multiple of `2^64`. -/
def wrapInt (x : Int) : Int :=
  (x + 9223372036854775808) % 18446744073709551616 - 9223372036854775808

/-! ## The store handlers -/

/-- getTasks: the list of all tasks, `range` visiting the map in order `ord`. -/
def getTasks (ord : RangeOrder) (s : Store) : Response × Store :=
  let taskList : TaskSlice :=
    (ord.visit s.tasks.entries).foldl (fun acc e => appendSlice acc e.2)
      (makeSlice s.tasks.len)
  (jsonResponse StatusOK (encodeSlice taskList), s)

/-- createTask: decode the body, give the task the id `nextID`, store it,
    increment `nextID` (`nextID++` on `int`), answer 201 with the task. -/
def createTask (s : Store) (r : Request) : Response × Store :=
  match decodeTask r.body with
  | .error err => (httpError err StatusBadRequest, s)
  | .ok task =>
      let task : Task := { task with ID := s.nextID }
      (jsonResponse StatusCreated (.jsonTask task),
        { tasks := s.tasks.insert task.ID task, nextID := wrapInt (s.nextID + 1) })

/-- getTask: the task stored under `id`, or 404. -/
def getTask (s : Store) (id : Int) : Response × Store :=
  match s.tasks.lookup id with
  | none => (httpError "Задача не найдена" StatusNotFound, s)
  | some task => (jsonResponse StatusOK (.jsonTask task), s)

/-- updateTask: 404 when `id` is not in the map; otherwise decode the body
    (400 on failure), set the id of the decoded task to `id` and store it
    under `id`. -/
def updateTask (s : Store) (r : Request) (id : Int) : Response × Store :=
  match s.tasks.lookup id with
  | none => (httpError "Задача для обновления не найдена" StatusNotFound, s)
  | some _ =>
      match decodeTask r.body with
      | .error err => (httpError err StatusBadRequest, s)
      | .ok updatedTask =>
          let updatedTask : Task := { updatedTask with ID := id }
          (jsonResponse StatusOK (.jsonTask updatedTask),
            { s with tasks := s.tasks.insert id updatedTask })

/-- deleteTask: 404 when `id` is not in the map; otherwise remove the entry
    and answer 204 without a body. -/
def deleteTask (s : Store) (id : Int) : Response × Store :=
  match s.tasks.lookup id with
  | none => (httpError "Задача для удаления не найдена" StatusNotFound, s)
  | some _ =>
      ({ status := StatusNoContent, contentType := none, body := .empty },
        { s with tasks := s.tasks.erase id })

/-! ## The route handlers -/

/-- tasksHandler: the handler of `/tasks`. -/
def tasksHandler (ord : RangeOrder) (s : Store) (r : Request) : Response × Store :=
  if r.method = MethodGet then getTasks ord s
  else if r.method = MethodPost then createTask s r
  else (httpError "Метод не поддерживается" StatusMethodNotAllowed, s)

/-- The expression `r.URL.Path[len("/tasks/"):]` for a path that starts with
    `/tasks/` (seven one-byte characters). -/
def idStrOf (path : String) : String := String.mk (path.data.drop 7)

/-- taskHandler: the handler of `/tasks/{id}`. -/
def taskHandler (s : Store) (r : Request) : Response × Store :=
  match Atoi (idStrOf r.path) with
  | none => (httpError "Неверный ID" StatusBadRequest, s)
  | some id =>
      if r.method = MethodGet then getTask s id
      else if r.method = MethodPut then updateTask s r id
      else if r.method = MethodDelete then deleteTask s id
      else (httpError "Метод не поддерживается" StatusMethodNotAllowed, s)

/-- The route table of `main` as `http.DefaultServeMux` serves it: the
    pattern `/tasks` matches that path only, the pattern `/tasks/` matches
    every path it is a prefix of, and any other path is answered by the
    multiplexer's own 404.  A path that is not in canonical form (a doubled
    slash, a dot segment) is redirected by the multiplexer before any handler
    runs; here it is given to the handler of its prefix, which leaves the
    store as it is too (such a remainder is not an integer). -/
def serve (ord : RangeOrder) (s : Store) (r : Request) : Response × Store :=
  if r.path = "/tasks" then tasksHandler ord s r
  else if "/tasks/".data.isPrefixOf r.path.data then taskHandler s r
  else (httpError "404 page not found" StatusNotFound, s)

/-- The store when `main` starts to listen: `nextID = 1` and the seed task
    under key `0`. -/
def initStore : Store :=
  { tasks := (∅ : TaskMap).insert 0 { ID := 0, Name := "Выучить Go", Done := false },
    nextID := 1 }

/-- Serve a sequence of requests one after the other; the result is the
    list of (request, response) pairs, in order, and the final store. -/
def run (s : Store) : List (RangeOrder × Request) → List (Request × Response) × Store
  | [] => ([], s)
  | (ord, r) :: rest =>
      let step := serve ord s r
      let tail := run step.2 rest
      ((r, step.1) :: tail.1, tail.2)

/-- The id a response reports as created: the id of the task in a 201
    response (only `createTask` answers 201). -/
def createdID (p : Request × Response) : Option Int :=
  if p.2.status = StatusCreated then
    match p.2.body with
    | .jsonTask t => some t.ID
    | _ => none
  else none

/-- The ids returned by the successful creates of a trace, in order. -/
def createdIDs (trace : List (Request × Response)) : List Int :=
  trace.filterMap createdID

/-- The stores reachable from the startup state by serving requests. -/
def Reachable (s : Store) : Prop :=
  ∃ reqs : List (RangeOrder × Request), (run initStore reqs).2 = s

/-- Issue `deleteTask` for each id of a list, in order. -/
def deleteAll (s : Store) : List Int → Store
  | [] => s
  | i :: rest => deleteAll (deleteTask s i).2 rest

/-! ## The JSON text of a body -/

/-- A JSON value as the decoder meets it in a field of the body.  A number
    is `int` when its literal is written as an integer, `fraction` when it
    has a fraction or an exponent. -/
inductive JValue
  | null
  | bool (b : Bool)
  | int (n : Int)
  | fraction (literal : String)
  | string (s : String)
  | array
  | object
deriving DecidableEq

/-- The JSON text of a request body: text the decoder cannot read as a JSON
    object (not JSON at all, or a value of another kind), or an object, given
    by the value it holds for each of the keys `id`, `name` and `done`
    (`none`: the key is absent).  Keys that match no field of `Task` are
    skipped by the decoder and left out here; the text `null`, which the
    decoder accepts and which sets no field, is the object without keys. -/
inductive JBody
  | invalid (err : String)
  | object (id : Option JValue) (name : Option JValue) (done : Option JValue)
deriving DecidableEq

/-- The way the decoder names the kind of a value in its type errors. -/
def JValue.kind : JValue → String
  | .null => "null"
  | .bool _ => "bool"
  | .int n => "number " ++ toString n
  | .fraction literal => "number " ++ literal
  | .string _ => "string"
  | .array => "array"
  | .object => "object"

/-- The message of the decoder's `UnmarshalTypeError` for a field of `Task`. -/
def unmarshalTypeError (v : JValue) (field : String) (goType : String) : String :=
  "json: cannot unmarshal " ++ v.kind ++ " into Go struct field Task." ++ field ++
    " of type " ++ goType

/-- Decoding a field of type `int` (64 bits): an absent key and `null` leave
    the field as it is, an integer literal in the range of `int` sets it,
    any other value is a type error. -/
def decodeIntField (field : String) : Option JValue → Except String (Option Int)
  | none => .ok none
  | some .null => .ok none
  | some (.int n) =>
      if -(2 : Int) ^ 63 ≤ n ∧ n < (2 : Int) ^ 63 then .ok (some n)
      else .error (unmarshalTypeError (.int n) field "int")
  | some v => .error (unmarshalTypeError v field "int")

/-- Decoding a field of type `string`. -/
def decodeStringField (field : String) : Option JValue → Except String (Option String)
  | none => .ok none
  | some .null => .ok none
  | some (.string s) => .ok (some s)
  | some v => .error (unmarshalTypeError v field "string")

/-- Decoding a field of type `bool`. -/
def decodeBoolField (field : String) : Option JValue → Except String (Option Bool)
  | none => .ok none
  | some .null => .ok none
  | some (.bool b) => .ok (some b)
  | some v => .error (unmarshalTypeError v field "bool")

/-- What the decoder makes of the JSON text of a body when it decodes into a
    `Task`: each of the three fields is decoded at its Go type (`ID int`,
    `Name string`, `Done bool`), and a value of the wrong type makes the
    decoding fail.  When several fields are ill-typed the decoder reports the
    first one in the text; the text order is taken to be `id`, `name`,
    `done`. -/
def readBody : JBody → Body
  | .invalid err => .malformed err
  | .object id name done =>
      match decodeIntField "id" id with
      | .error err => .malformed err
      | .ok i =>
          match decodeStringField "name" name with
          | .error err => .malformed err
          | .ok n =>
              match decodeBoolField "done" done with
              | .error err => .malformed err
              | .ok d => .object i n d

/-! ## The critical sections of `updateTask` -/

/-- The first critical section of `updateTask`, from its first `mutex.Lock()`
    to the `mutex.Unlock()` that follows: is `id` in the map? -/
def updateTaskCheck (s : Store) (id : Int) : Bool :=
  (s.tasks.lookup id).isSome

/-- The second critical section of `updateTask`, from its second
    `mutex.Lock()` to the return: set the id of the decoded task, store it
    under `id`, answer 200. -/
def updateTaskWrite (s : Store) (updatedTask : Task) (id : Int) : Response × Store :=
  let updatedTask : Task := { updatedTask with ID := id }
  (jsonResponse StatusOK (.jsonTask updatedTask),
    { s with tasks := s.tasks.insert id updatedTask })

/-- The function `updateTask` run next to other goroutines: `between` is what
    they do to the store while the mutex is free, after the first critical
    section and before the second (the body is decoded in that interval,
    without the mutex).  With `between` the identity this is `updateTask`. -/
def updateTaskInterleaved (between : Store → Store) (s : Store) (r : Request) (id : Int) :
    Response × Store :=
  if updateTaskCheck s id then
    match decodeTask r.body with
    | .error err => (httpError err StatusBadRequest, between s)
    | .ok updatedTask => updateTaskWrite (between s) updatedTask id
  else (httpError "Задача для обновления не найдена" StatusNotFound, between s)


/-! ## Lemmas on one step -/

/-- Every entry of the map is stored under its own id. -/
def KeyInv (s : Store) : Prop :=
  ∀ k t, s.tasks.lookup k = some t → t.ID = k

/-- The invariant of the store: every entry is stored under its own id, and
    every key is below the counter. -/
def Inv (s : Store) : Prop :=
  ∀ k t, s.tasks.lookup k = some t → t.ID = k ∧ k < s.nextID

/-- What every handler guarantees: the counter moves only with a 201, which
    reports the counter and increments it as `int`; entries stay under their
    own ids; keys stay below the counter as long as a 201 raises it. -/
def StepSpec (s : Store) (out : Response × Store) : Prop :=
  (∀ r, createdID (r, out.1) = none → out.2.nextID = s.nextID) ∧
  (∀ r i, createdID (r, out.1) = some i →
    i = s.nextID ∧ out.2.nextID = wrapInt (s.nextID + 1)) ∧
  (KeyInv s → KeyInv out.2) ∧
  (Inv s → (∀ r i, createdID (r, out.1) = some i → s.nextID < out.2.nextID) → Inv out.2)

/-- A create request with a body that decodes. -/
def createReq : RangeOrder × Request :=
  (RangeOrder.stored, ⟨"POST", "/tasks", .object none (some "a") (some false)⟩)

/-- The run of `2^63 - 1` creates: the last one returns the largest `int`. -/
def createsUpToWrap : List (RangeOrder × Request) :=
  List.replicate 9223372036854775806 createReq ++ [createReq]

/-- The run of `2^63` creates: one more than `createsUpToWrap`. -/
def createsPastWrap : List (RangeOrder × Request) :=
  List.replicate 9223372036854775806 createReq ++ [createReq, createReq]

theorem wrapInt_ge (x : Int) : minInt ≤ wrapInt x := by
  unfold wrapInt minInt
  omega

theorem wrapInt_le (x : Int) : wrapInt x ≤ maxInt := by
  unfold wrapInt maxInt
  omega

theorem wrapInt_succ (c : Int) (hlo : minInt ≤ c) (hhi : c < maxInt) :
    wrapInt (c + 1) = c + 1 := by
  unfold wrapInt
  unfold minInt at hlo
  unfold maxInt at hhi
  omega

theorem wrapInt_maxInt : wrapInt (maxInt + 1) = minInt := by
  decide

theorem stepSpec_same (s : Store) (resp : Response) (h : resp.status ≠ StatusCreated) :
    StepSpec s (resp, s) := by
  refine ⟨fun _ _ => rfl, ?_, fun hk => hk, fun hi _ => hi⟩
  intro r i hc
  simp [createdID, h] at hc

theorem stepSpec_error (s : Store) (msg : String) (code : Nat) (h : code ≠ StatusCreated) :
    StepSpec s (httpError msg code, s) :=
  stepSpec_same s _ (by simpa [httpError] using h)

theorem lookup_insert_cases (m : TaskMap) (k k' : Int) (t t' : Task)
    (h : (m.insert k t).lookup k' = some t') :
    (k' = k ∧ t' = t) ∨ (k' ≠ k ∧ m.lookup k' = some t') := by
  by_cases hk : k' = k
  · subst hk
    rw [AList.lookup_insert] at h
    exact Or.inl ⟨rfl, (Option.some.inj h).symm⟩
  · rw [AList.lookup_insert_ne hk] at h
    exact Or.inr ⟨hk, h⟩

theorem lookup_erase_cases (m : TaskMap) (k k' : Int) (t' : Task)
    (h : (m.erase k).lookup k' = some t') : k' ≠ k ∧ m.lookup k' = some t' := by
  by_cases hk : k' = k
  · subst hk
    rw [AList.lookup_erase] at h
    exact absurd h (by simp)
  · rw [AList.lookup_erase_ne hk] at h
    exact ⟨hk, h⟩

theorem getTasks_spec (ord : RangeOrder) (s : Store) : StepSpec s (getTasks ord s) := by
  unfold getTasks
  exact stepSpec_same s _ (by simp [jsonResponse, StatusOK, StatusCreated])

theorem getTask_spec (s : Store) (id : Int) : StepSpec s (getTask s id) := by
  unfold getTask
  split
  · exact stepSpec_error s _ _ (by decide)
  · exact stepSpec_same s _ (by simp [jsonResponse, StatusOK, StatusCreated])

theorem createTask_spec (s : Store) (r : Request) : StepSpec s (createTask s r) := by
  unfold createTask
  split
  · exact stepSpec_error s _ _ (by decide)
  · refine ⟨?_, ?_, ?_, ?_⟩
    · intro r' hc
      simp [createdID, jsonResponse] at hc
    · intro r' i hc
      simp [createdID, jsonResponse] at hc
      exact ⟨hc.symm, rfl⟩
    · intro hk k t hl
      rcases lookup_insert_cases _ _ _ _ _ hl with ⟨hk', ht⟩ | ⟨_, ho⟩
      · subst hk'; subst ht
        rfl
      · exact hk k t ho
    · intro hi hup k t hl
      have hlt := hup r s.nextID (by simp [createdID, jsonResponse])
      rcases lookup_insert_cases _ _ _ _ _ hl with ⟨hk', ht⟩ | ⟨_, ho⟩
      · subst hk'; subst ht
        exact ⟨rfl, hlt⟩
      · have := hi k t ho
        exact ⟨this.1, lt_trans this.2 hlt⟩

theorem updateTask_spec (s : Store) (r : Request) (id : Int) :
    StepSpec s (updateTask s r id) := by
  unfold updateTask
  split
  · exact stepSpec_error s _ _ (by decide)
  · rename_i old hold
    split
    · exact stepSpec_error s _ _ (by decide)
    · refine ⟨fun _ _ => rfl, ?_, ?_, ?_⟩
      · intro r' i hc
        simp [createdID, jsonResponse, StatusOK, StatusCreated] at hc
      · intro hk k t hl
        rcases lookup_insert_cases _ _ _ _ _ hl with ⟨hk', ht⟩ | ⟨_, ho⟩
        · subst hk'; subst ht
          rfl
        · exact hk k t ho
      · intro hi _ k t hl
        rcases lookup_insert_cases _ _ _ _ _ hl with ⟨hk', ht⟩ | ⟨_, ho⟩
        · subst hk'; subst ht
          exact ⟨rfl, (hi k old hold).2⟩
        · exact hi k t ho

theorem deleteTask_spec (s : Store) (id : Int) : StepSpec s (deleteTask s id) := by
  unfold deleteTask
  split
  · exact stepSpec_error s _ _ (by decide)
  · refine ⟨fun _ _ => rfl, ?_, ?_, ?_⟩
    · intro r' i hc
      simp [createdID, StatusNoContent, StatusCreated] at hc
    · intro hk k t hl
      exact hk k t (lookup_erase_cases _ _ _ _ hl).2
    · intro hi _ k t hl
      exact hi k t (lookup_erase_cases _ _ _ _ hl).2

theorem tasksHandler_spec (ord : RangeOrder) (s : Store) (r : Request) :
    StepSpec s (tasksHandler ord s r) := by
  unfold tasksHandler
  split_ifs
  · exact getTasks_spec ord s
  · exact createTask_spec s r
  · exact stepSpec_error s _ _ (by decide)

theorem taskHandler_spec (s : Store) (r : Request) : StepSpec s (taskHandler s r) := by
  unfold taskHandler
  split
  · exact stepSpec_error s _ _ (by decide)
  · split_ifs
    · exact getTask_spec s _
    · exact updateTask_spec s r _
    · exact deleteTask_spec s _
    · exact stepSpec_error s _ _ (by decide)

theorem serve_spec (ord : RangeOrder) (s : Store) (r : Request) :
    StepSpec s (serve ord s r) := by
  unfold serve
  split_ifs
  · exact tasksHandler_spec ord s r
  · exact taskHandler_spec s r
  · exact stepSpec_error s _ _ (by decide)

/-! ## Lemmas on a run -/

theorem run_nil (s : Store) : run s [] = ([], s) := rfl

theorem run_cons (s : Store) (ord : RangeOrder) (r : Request)
    (rest : List (RangeOrder × Request)) :
    run s ((ord, r) :: rest) =
      ((r, (serve ord s r).1) :: (run (serve ord s r).2 rest).1,
        (run (serve ord s r).2 rest).2) := rfl

theorem run_append (a b : List (RangeOrder × Request)) :
    ∀ s : Store,
      run s (a ++ b) = ((run s a).1 ++ (run (run s a).2 b).1, (run (run s a).2 b).2) := by
  induction a with
  | nil => intro s; rfl
  | cons head rest ih =>
      intro s
      obtain ⟨ord, r⟩ := head
      rw [List.cons_append, run_cons, ih, run_cons]
      rfl

theorem run_append_snd (a b : List (RangeOrder × Request)) (s : Store) :
    (run s (a ++ b)).2 = (run (run s a).2 b).2 := by
  rw [run_append]

theorem createdIDs_run_append (a b : List (RangeOrder × Request)) (s : Store) :
    createdIDs (run s (a ++ b)).1 =
      createdIDs (run s a).1 ++ createdIDs (run (run s a).2 b).1 := by
  rw [run_append]
  exact List.filterMap_append _ _ createdID

theorem createdIDs_cons (p : Request × Response) (tr : List (Request × Response)) :
    createdIDs (p :: tr) =
      match createdID p with
      | none => createdIDs tr
      | some i => i :: createdIDs tr := by
  unfold createdIDs
  rw [List.filterMap_cons]
  cases createdID p <;> rfl

theorem createdIDs_append (a b : List (Request × Response)) :
    createdIDs (a ++ b) = createdIDs a ++ createdIDs b := by
  unfold createdIDs
  exact List.filterMap_append a b createdID

/-- Entries stay under their own ids along every run. -/
theorem run_keyInv (reqs : List (RangeOrder × Request)) :
    ∀ s : Store, KeyInv s → KeyInv (run s reqs).2 := by
  induction reqs with
  | nil => intro s h; exact h
  | cons head rest ih =>
      intro s h
      obtain ⟨ord, r⟩ := head
      rw [run_cons]
      exact ih _ ((serve_spec ord s r).2.2.1 h)

/-- Along a run from a store with counter `c` in which `n` creates succeed:
    as long as `c + n - 1` is an `int` the ids created are `c`, `c + 1`, ...,
    `c + n - 1` in this order; as long as `c + n` is an `int` the counter ends
    at `c + n` and the invariant of the store is kept. -/
theorem run_bounded (reqs : List (RangeOrder × Request)) :
    ∀ s : Store, minInt ≤ s.nextID →
      (s.nextID + ((createdIDs (run s reqs).1).length : Int) ≤ maxInt + 1 →
        createdIDs (run s reqs).1 =
          (List.range (createdIDs (run s reqs).1).length).map
            (fun k : Nat => s.nextID + (k : Int))) ∧
      (s.nextID + ((createdIDs (run s reqs).1).length : Int) ≤ maxInt →
        (run s reqs).2.nextID = s.nextID + ((createdIDs (run s reqs).1).length : Int) ∧
        (Inv s → Inv (run s reqs).2)) := by
  induction reqs with
  | nil =>
      intro s _
      simp [run_nil, createdIDs]
  | cons head rest ih =>
      intro s hlo
      obtain ⟨ord, r⟩ := head
      obtain ⟨hnone, hsome, _, hinv⟩ := serve_spec ord s r
      rw [run_cons]
      simp only [createdIDs_cons]
      cases hc : createdID (r, (serve ord s r).1) with
      | none =>
          have hsame : (serve ord s r).2.nextID = s.nextID := hnone r hc
          obtain ⟨ihids, ihnext⟩ := ih (serve ord s r).2 (by rw [hsame]; exact hlo)
          rw [hsame] at ihids ihnext
          simp only []
          refine ⟨ihids, fun hb => ⟨(ihnext hb).1, fun hi => (ihnext hb).2 (hinv hi ?_)⟩⟩
          intro r' i hc'
          have hc'' : createdID (r, (serve ord s r).1) = some i := hc'
          rw [hc] at hc''
          cases hc''
      | some j =>
          obtain ⟨hj, hnext⟩ := hsome r j hc
          have hlo' : minInt ≤ (serve ord s r).2.nextID := by
            rw [hnext]; exact wrapInt_ge _
          have hhi' : (serve ord s r).2.nextID ≤ maxInt := by
            rw [hnext]; exact wrapInt_le _
          obtain ⟨ihids, ihnext⟩ := ih (serve ord s r).2 hlo'
          simp only [List.length_cons, Nat.cast_add, Nat.cast_one]
          constructor
          · intro hb
            cases hlen : (createdIDs (run (serve ord s r).2 rest).1).length with
            | zero =>
                have hnil : createdIDs (run (serve ord s r).2 rest).1 = [] :=
                  List.length_eq_zero.mp hlen
                rw [hnil, hj]
                simp [List.range_succ]
            | succ m =>
                rw [hlen] at hb ihids
                have hstep : (serve ord s r).2.nextID = s.nextID + 1 := by
                  rw [hnext]
                  apply wrapInt_succ _ hlo
                  push_cast at hb
                  omega
                rw [hstep] at ihids
                have hrest := ihids (by push_cast at hb ⊢; omega)
                rw [← hlen] at hrest ⊢
                rw [List.range_succ_eq_map, List.map_cons, List.map_map]
                have hfun : ((fun k : Nat => s.nextID + (k : Int)) ∘ Nat.succ) =
                    fun k : Nat => s.nextID + 1 + (k : Int) := by
                  funext k
                  simp only [Function.comp, Nat.succ_eq_add_one, Nat.cast_add, Nat.cast_one]
                  ring
                rw [hfun, ← hrest, hj]
                simp
          · intro hb
            have hstep : (serve ord s r).2.nextID = s.nextID + 1 := by
              rw [hnext]
              apply wrapInt_succ _ hlo
              omega
            rw [hstep] at ihnext
            obtain ⟨hfinal, hkeep⟩ := ihnext (by omega)
            refine ⟨by rw [hfinal]; ring, fun hi => hkeep (hinv hi ?_)⟩
            intro r' i _
            rw [hstep]
            omega

theorem createdIDs_length_le (reqs : List (RangeOrder × Request)) :
    ∀ s : Store, (createdIDs (run s reqs).1).length ≤ reqs.length := by
  induction reqs with
  | nil => intro s; simp [run_nil, createdIDs]
  | cons head rest ih =>
      intro s
      obtain ⟨ord, r⟩ := head
      rw [run_cons]
      simp only [createdIDs_cons]
      cases createdID (r, (serve ord s r).1) with
      | none => exact Nat.le_succ_of_le (ih _)
      | some j => exact Nat.succ_le_succ (ih _)

theorem serve_createReq (s : Store) :
    serve createReq.1 s createReq.2 =
      (jsonResponse StatusCreated (.jsonTask ⟨s.nextID, "a", false⟩),
        { tasks := s.tasks.insert s.nextID ⟨s.nextID, "a", false⟩,
          nextID := wrapInt (s.nextID + 1) }) := rfl

/-- A run of `m` creates from a counter `c` with `c + m` an `int` ends with
    the counter at `c + m`. -/
theorem run_replicate_createReq (m : Nat) :
    ∀ s : Store, minInt ≤ s.nextID → s.nextID + (m : Int) ≤ maxInt →
      (run s (List.replicate m createReq)).2.nextID = s.nextID + (m : Int) := by
  induction m with
  | zero => intro s _ _; simp [run_nil]
  | succ m ih =>
      intro s hlo hhi
      have hstep : (serve createReq.1 s createReq.2).2.nextID = s.nextID + 1 := by
        rw [serve_createReq]
        apply wrapInt_succ _ hlo
        push_cast at hhi
        omega
      rw [List.replicate_succ]
      show (run (serve createReq.1 s createReq.2).2 (List.replicate m createReq)).2.nextID = _
      rw [ih _ (by rw [hstep]; omega) (by rw [hstep]; push_cast at hhi; omega), hstep]
      push_cast
      ring

/-- After `2^63 - 2` creates from the startup state the counter is the
    largest `int`. -/
theorem nextID_before_wrap :
    (run initStore (List.replicate 9223372036854775806 createReq)).2.nextID = maxInt := by
  have h := run_replicate_createReq 9223372036854775806 initStore (by decide) (by decide)
  rw [h]
  decide

theorem inv_initStore : Inv initStore := by
  intro k t h
  unfold initStore at h
  rcases lookup_insert_cases _ _ _ _ _ h with ⟨hk, ht⟩ | ⟨_, ho⟩
  · subst hk; subst ht
    exact ⟨rfl, by decide⟩
  · simp at ho

theorem foldl_appendSlice (l : List (Sigma fun _ : Int => Task)) :
    ∀ acc : List Task,
      l.foldl (fun a e => appendSlice a e.2) (some acc) = some (acc ++ l.map (fun e => e.2)) := by
  induction l with
  | nil => intro acc; simp
  | cons e es ih =>
      intro acc
      have hstep : appendSlice (some acc) e.2 = some (acc ++ [e.2]) := rfl
      rw [List.foldl_cons, hstep, ih]
      simp

theorem getTasks_eq (ord : RangeOrder) (s : Store) :
    getTasks ord s =
      (jsonResponse StatusOK (.jsonArray ((ord.visit s.tasks.entries).map (fun e => e.2))), s) := by
  unfold getTasks makeSlice
  simp only [foldl_appendSlice, encodeSlice, List.nil_append]

/-- A create that decodes its body reports the counter as the id created. -/
theorem createdID_createTask (s : Store) (r : Request) (t : Task)
    (hdec : decodeTask r.body = .ok t) :
    createdID (r, (createTask s r).1) = some s.nextID := by
  simp [createTask, hdec, createdID, jsonResponse]

/-- Three creates with a delete and a rejected request in between return the
    ids 1, 2 and 3. -/
theorem createdIDs_example :
    createdIDs (run initStore
      [(RangeOrder.stored, ⟨"POST", "/tasks", .object none (some "a") (some false)⟩),
       (RangeOrder.stored, ⟨"DELETE", "/tasks/1", .malformed "EOF"⟩),
       (RangeOrder.stored, ⟨"POST", "/tasks", .object (some 1) (some "b") none⟩),
       (RangeOrder.stored, ⟨"GET", "/tasks/abc", .malformed "EOF"⟩),
       (RangeOrder.stored, ⟨"POST", "/tasks", .object none none none⟩)]).1 = [1, 2, 3] := by
  decide

/-! ## The claims -/

/-- C1 as stated fails: in the run of `2^63` creates from the startup state
    the create before the last returns the largest `int` and the last one
    returns the smallest, so the ids returned are not increasing. -/
theorem created_ids_wrap :
    createdIDs (run (run initStore (List.replicate 9223372036854775806 createReq)).2
      [createReq, createReq]).1 = [maxInt, minInt] ∧
    ¬ (createdIDs (run initStore createsPastWrap).1).Pairwise (fun a b => a < b) := by
  have hlast : createdIDs (run (run initStore (List.replicate 9223372036854775806 createReq)).2
      [createReq, createReq]).1 = [maxInt, minInt] := by
    have hshape : ∀ s : Store, createdIDs (run s [createReq, createReq]).1 =
        [s.nextID, wrapInt (s.nextID + 1)] := fun _ => rfl
    rw [hshape, nextID_before_wrap, wrapInt_maxInt]
  refine ⟨hlast, ?_⟩
  intro hpw
  unfold createsPastWrap at hpw
  rw [createdIDs_run_append, hlast] at hpw
  have hlt := (List.pairwise_append.mp hpw).2.1
  rw [List.pairwise_pair] at hlt
  exact absurd hlt (by decide)

/-- C1, amended: for every sequence of requests served from the startup
    state in which at most `2^63 - 1` creates succeed, the ids returned by
    the successful creates are strictly increasing in the order of the
    requests, hence pairwise distinct, whatever other requests come in
    between. -/
theorem created_ids_strictly_increasing (reqs : List (RangeOrder × Request))
    (hbound : (createdIDs (run initStore reqs).1).length ≤ 9223372036854775807) :
    (createdIDs (run initStore reqs).1).Pairwise (fun a b => a < b) ∧
    (createdIDs (run initStore reqs).1).Nodup := by
  have hids := (run_bounded reqs initStore (by decide)).1 (by
    have h1 : initStore.nextID = 1 := rfl
    have h2 : maxInt = 9223372036854775807 := rfl
    rw [h1, h2]
    omega)
  have hpw : (createdIDs (run initStore reqs).1).Pairwise (fun a b => a < b) := by
    rw [hids]
    refine List.Pairwise.map _ ?_ (List.pairwise_lt_range _)
    intro a b hab
    show initStore.nextID + (a : Int) < initStore.nextID + (b : Int)
    omega
  exact ⟨hpw, hpw.imp (fun hab => ne_of_lt hab)⟩

theorem created_ids_strictly_increasing_witness :
    (createdIDs (run initStore
      [(RangeOrder.stored, ⟨"POST", "/tasks", .object none (some "a") (some false)⟩),
       (RangeOrder.stored, ⟨"DELETE", "/tasks/1", .malformed "EOF"⟩),
       (RangeOrder.stored, ⟨"POST", "/tasks", .object (some 1) (some "b") none⟩),
       (RangeOrder.stored, ⟨"POST", "/tasks", .malformed "EOF"⟩),
       (RangeOrder.stored, ⟨"POST", "/tasks", .object none none none⟩)]).1).Pairwise
        (fun a b => a < b) ∧
    (createdIDs (run initStore
      [(RangeOrder.stored, ⟨"POST", "/tasks", .object none (some "a") (some false)⟩),
       (RangeOrder.stored, ⟨"DELETE", "/tasks/1", .malformed "EOF"⟩),
       (RangeOrder.stored, ⟨"POST", "/tasks", .object (some 1) (some "b") none⟩),
       (RangeOrder.stored, ⟨"POST", "/tasks", .malformed "EOF"⟩),
       (RangeOrder.stored, ⟨"POST", "/tasks", .object none none none⟩)]).1).Nodup :=
  created_ids_strictly_increasing _ (by decide)

/-- C2 as stated fails: after the run of `2^63 - 1` creates from the startup
    state the last create has returned the largest `int` and the counter has
    wrapped to the smallest, below an id it has assigned. -/
theorem nextID_wraps_below_ids :
    maxInt ∈ createdIDs (run initStore createsUpToWrap).1 ∧
    (run initStore createsUpToWrap).2.nextID = minInt ∧
    ¬ ∀ i ∈ createdIDs (run initStore createsUpToWrap).1,
        i < (run initStore createsUpToWrap).2.nextID := by
  have hshape : ∀ s : Store, createdIDs (run s [createReq]).1 = [s.nextID] ∧
      (run s [createReq]).2.nextID = wrapInt (s.nextID + 1) := fun _ => ⟨rfl, rfl⟩
  have hmem : maxInt ∈ createdIDs (run initStore createsUpToWrap).1 := by
    unfold createsUpToWrap
    rw [createdIDs_run_append, (hshape _).1, nextID_before_wrap]
    exact List.mem_append_right _ (List.mem_singleton.mpr rfl)
  have hnext : (run initStore createsUpToWrap).2.nextID = minInt := by
    unfold createsUpToWrap
    rw [run_append_snd, (hshape _).2, nextID_before_wrap, wrapInt_maxInt]
  refine ⟨hmem, hnext, ?_⟩
  intro hall
  have hlt := hall maxInt hmem
  rw [hnext] at hlt
  exact absurd hlt (by decide)

/-- C2, amended: after every sequence of requests served from the startup
    state in which at most `2^63 - 2` creates succeed, the counter `nextID`
    is strictly greater than the key and the id of every task in the store
    and than every id a create has returned during the run, the tasks
    deleted since included. -/
theorem nextID_above_all_ids (reqs : List (RangeOrder × Request))
    (hbound : (createdIDs (run initStore reqs).1).length ≤ 9223372036854775806) :
    (∀ k t, (run initStore reqs).2.tasks.lookup k = some t →
      k < (run initStore reqs).2.nextID ∧ t.ID < (run initStore reqs).2.nextID) ∧
    (∀ i ∈ createdIDs (run initStore reqs).1, i < (run initStore reqs).2.nextID) ∧
    0 < (run initStore reqs).2.nextID := by
  have h1 : initStore.nextID = 1 := rfl
  have h2 : maxInt = 9223372036854775807 := rfl
  obtain ⟨hids, hrest⟩ := run_bounded reqs initStore (by decide)
  have hids' := hids (by rw [h1, h2]; omega)
  obtain ⟨hnext, hinv⟩ := hrest (by rw [h1, h2]; omega)
  refine ⟨?_, ?_, ?_⟩
  · intro k t hl
    have := hinv inv_initStore k t hl
    exact ⟨this.2, by rw [this.1]; exact this.2⟩
  · intro i hi
    rw [hids'] at hi
    obtain ⟨k, hk, hki⟩ := List.mem_map.mp hi
    have hklt := List.mem_range.mp hk
    rw [hnext, ← hki]
    omega
  · rw [hnext, h1]
    omega

theorem nextID_above_all_ids_witness :
    (∀ k t, (run initStore
        [(RangeOrder.stored, ⟨"POST", "/tasks", .object none (some "a") (some false)⟩),
         (RangeOrder.stored, ⟨"DELETE", "/tasks/1", .malformed "EOF"⟩),
         (RangeOrder.stored, ⟨"POST", "/tasks", .object none (some "b") none⟩)]).2.tasks.lookup k =
          some t →
      k < (run initStore
        [(RangeOrder.stored, ⟨"POST", "/tasks", .object none (some "a") (some false)⟩),
         (RangeOrder.stored, ⟨"DELETE", "/tasks/1", .malformed "EOF"⟩),
         (RangeOrder.stored, ⟨"POST", "/tasks", .object none (some "b") none⟩)]).2.nextID ∧
      t.ID < (run initStore
        [(RangeOrder.stored, ⟨"POST", "/tasks", .object none (some "a") (some false)⟩),
         (RangeOrder.stored, ⟨"DELETE", "/tasks/1", .malformed "EOF"⟩),
         (RangeOrder.stored, ⟨"POST", "/tasks", .object none (some "b") none⟩)]).2.nextID) ∧
    (∀ i ∈ createdIDs (run initStore
        [(RangeOrder.stored, ⟨"POST", "/tasks", .object none (some "a") (some false)⟩),
         (RangeOrder.stored, ⟨"DELETE", "/tasks/1", .malformed "EOF"⟩),
         (RangeOrder.stored, ⟨"POST", "/tasks", .object none (some "b") none⟩)]).1,
      i < (run initStore
        [(RangeOrder.stored, ⟨"POST", "/tasks", .object none (some "a") (some false)⟩),
         (RangeOrder.stored, ⟨"DELETE", "/tasks/1", .malformed "EOF"⟩),
         (RangeOrder.stored, ⟨"POST", "/tasks", .object none (some "b") none⟩)]).2.nextID) ∧
    0 < (run initStore
        [(RangeOrder.stored, ⟨"POST", "/tasks", .object none (some "a") (some false)⟩),
         (RangeOrder.stored, ⟨"DELETE", "/tasks/1", .malformed "EOF"⟩),
         (RangeOrder.stored, ⟨"POST", "/tasks", .object none (some "b") none⟩)]).2.nextID :=
  nextID_above_all_ids _ (by decide)

/-- C3: for every store and every create body that carries `name` and `done`
    (with or without an `id`), `createTask` answers 201 with a task `t` whose
    name and done are those of the body, and `getTask` with the id of `t`,
    called next, answers 200 with a task equal to `t`. -/
theorem createTask_then_getTask (s : Store) (r : Request) (id : Option Int)
    (name : String) (done : Bool) (hbody : r.body = .object id (some name) (some done)) :
    ∃ t : Task,
      (createTask s r).1 = jsonResponse StatusCreated (.jsonTask t) ∧
      t.Name = name ∧ t.Done = done ∧
      getTask (createTask s r).2 t.ID =
        (jsonResponse StatusOK (.jsonTask t), (createTask s r).2) := by
  refine ⟨{ ID := s.nextID, Name := name, Done := done }, ?_, rfl, rfl, ?_⟩
  · simp [createTask, decodeTask, hbody]
  · simp [createTask, decodeTask, hbody, getTask, AList.lookup_insert]

theorem createTask_then_getTask_witness :
    ∃ t : Task,
      (createTask initStore ⟨"POST", "/tasks", .object (some 7) (some "Buy milk") (some false)⟩).1 =
        jsonResponse StatusCreated (.jsonTask t) ∧
      t.Name = "Buy milk" ∧ t.Done = false ∧
      getTask (createTask initStore
          ⟨"POST", "/tasks", .object (some 7) (some "Buy milk") (some false)⟩).2 t.ID =
        (jsonResponse StatusOK (.jsonTask t),
          (createTask initStore
            ⟨"POST", "/tasks", .object (some 7) (some "Buy milk") (some false)⟩).2) :=
  createTask_then_getTask initStore
    ⟨"POST", "/tasks", .object (some 7) (some "Buy milk") (some false)⟩
    (some 7) "Buy milk" false rfl

/-- C4: for every store that holds a task under id `i` and every body that
    carries `name` and `done`, `updateTask` answers 200 with the task
    `{i, name, done}` (an id in the body is replaced by `i`), a following
    `getTask i` returns exactly that task, every other entry of the map is
    as before, and the counter is unchanged. -/
theorem updateTask_existing (s : Store) (r : Request) (i : Int) (old : Task)
    (id : Option Int) (name : String) (done : Bool)
    (hfound : s.tasks.lookup i = some old)
    (hbody : r.body = .object id (some name) (some done)) :
    (updateTask s r i).1 = jsonResponse StatusOK (.jsonTask ⟨i, name, done⟩) ∧
    getTask (updateTask s r i).2 i =
      (jsonResponse StatusOK (.jsonTask ⟨i, name, done⟩), (updateTask s r i).2) ∧
    (∀ j, j ≠ i → (updateTask s r i).2.tasks.lookup j = s.tasks.lookup j) ∧
    (updateTask s r i).2.nextID = s.nextID := by
  have hupd : updateTask s r i =
      (jsonResponse StatusOK (.jsonTask ⟨i, name, done⟩),
        { s with tasks := s.tasks.insert i ⟨i, name, done⟩ }) := by
    simp [updateTask, hfound, decodeTask, hbody]
  rw [hupd]
  refine ⟨rfl, ?_, ?_, rfl⟩
  · simp [getTask, AList.lookup_insert]
  · intro j hj
    exact AList.lookup_insert_ne hj

theorem updateTask_existing_witness :
    (updateTask initStore ⟨"PUT", "/tasks/0", .object (some 5) (some "Go") (some true)⟩ 0).1 =
        jsonResponse StatusOK (.jsonTask ⟨0, "Go", true⟩) ∧
    getTask (updateTask initStore
        ⟨"PUT", "/tasks/0", .object (some 5) (some "Go") (some true)⟩ 0).2 0 =
      (jsonResponse StatusOK (.jsonTask ⟨0, "Go", true⟩),
        (updateTask initStore
          ⟨"PUT", "/tasks/0", .object (some 5) (some "Go") (some true)⟩ 0).2) ∧
    (∀ j, j ≠ 0 →
      (updateTask initStore
        ⟨"PUT", "/tasks/0", .object (some 5) (some "Go") (some true)⟩ 0).2.tasks.lookup j =
        initStore.tasks.lookup j) ∧
    (updateTask initStore
      ⟨"PUT", "/tasks/0", .object (some 5) (some "Go") (some true)⟩ 0).2.nextID =
      initStore.nextID :=
  updateTask_existing initStore ⟨"PUT", "/tasks/0", .object (some 5) (some "Go") (some true)⟩ 0
    ⟨0, "Выучить Go", false⟩ (some 5) "Go" true (by decide) rfl

/-- C5: for every store, every id `i` that is not in the map and every
    request body, malformed or not, `updateTask` answers 404 and returns the
    store it was given: the same entries, hence the same number of tasks,
    and the same counter. -/
theorem updateTask_missing (s : Store) (r : Request) (i : Int)
    (hmissing : s.tasks.lookup i = none) :
    (updateTask s r i).1.status = StatusNotFound ∧
    (updateTask s r i).2 = s ∧
    (updateTask s r i).2.tasks.len = s.tasks.len ∧
    (updateTask s r i).2.nextID = s.nextID := by
  have hupd : updateTask s r i =
      (httpError "Задача для обновления не найдена" StatusNotFound, s) := by
    simp [updateTask, hmissing]
  rw [hupd]
  exact ⟨rfl, rfl, rfl, rfl⟩

theorem updateTask_missing_witness :
    (updateTask initStore ⟨"PUT", "/tasks/3", .malformed "unexpected EOF"⟩ 3).1.status =
        StatusNotFound ∧
    (updateTask initStore ⟨"PUT", "/tasks/3", .malformed "unexpected EOF"⟩ 3).2 = initStore ∧
    (updateTask initStore ⟨"PUT", "/tasks/3", .malformed "unexpected EOF"⟩ 3).2.tasks.len =
        initStore.tasks.len ∧
    (updateTask initStore ⟨"PUT", "/tasks/3", .malformed "unexpected EOF"⟩ 3).2.nextID =
        initStore.nextID :=
  updateTask_missing initStore ⟨"PUT", "/tasks/3", .malformed "unexpected EOF"⟩ 3 (by decide)

/-- C6: for every store and every id `i`: when a task is stored under `i`,
    `deleteTask i` answers 204 with an empty body and a following `getTask i`
    answers 404; when none is, `deleteTask i` answers 404 and returns the
    store it was given. -/
theorem deleteTask_then_getTask (s : Store) (i : Int) :
    (s.tasks.lookup i ≠ none →
      (deleteTask s i).1.status = StatusNoContent ∧
      (deleteTask s i).1.body = Payload.empty ∧
      (getTask (deleteTask s i).2 i).1.status = StatusNotFound) ∧
    (s.tasks.lookup i = none →
      (deleteTask s i).1.status = StatusNotFound ∧ (deleteTask s i).2 = s) := by
  constructor
  · intro hfound
    obtain ⟨old, hold⟩ := Option.ne_none_iff_exists'.mp hfound
    have hdel : deleteTask s i =
        ({ status := StatusNoContent, contentType := none, body := .empty },
          { s with tasks := s.tasks.erase i }) := by
      simp [deleteTask, hold]
    rw [hdel]
    refine ⟨rfl, rfl, ?_⟩
    simp [getTask, AList.lookup_erase, httpError]
  · intro hmissing
    have hdel : deleteTask s i =
        (httpError "Задача для удаления не найдена" StatusNotFound, s) := by
      simp [deleteTask, hmissing]
    rw [hdel]
    exact ⟨rfl, rfl⟩

theorem deleteTask_then_getTask_witness :
    ((deleteTask initStore 0).1.status = StatusNoContent ∧
      (deleteTask initStore 0).1.body = Payload.empty ∧
      (getTask (deleteTask initStore 0).2 0).1.status = StatusNotFound) ∧
    ((deleteTask initStore 4).1.status = StatusNotFound ∧
      (deleteTask initStore 4).2 = initStore) :=
  ⟨(deleteTask_then_getTask initStore 0).1 (by decide),
    (deleteTask_then_getTask initStore 4).2 (by decide)⟩

/-- C7: in every store reachable from the startup state, the task stored
    under key `k` has `ID = k`, so the tasks of a list response have pairwise
    distinct ids, whatever the order of iteration. -/
theorem reachable_key_eq_id (s : Store) (hreach : Reachable s) :
    (∀ k t, s.tasks.lookup k = some t → t.ID = k) ∧
    ∀ ord : RangeOrder, ∃ l : List Task,
      (getTasks ord s).1.body = .jsonArray l ∧ (l.map Task.ID).Nodup := by
  obtain ⟨reqs, hrun⟩ := hreach
  have hinv : KeyInv s := by
    rw [← hrun]
    exact run_keyInv reqs initStore (fun k t h => (inv_initStore k t h).1)
  refine ⟨fun k t h => hinv k t h, ?_⟩
  intro ord
  refine ⟨(ord.visit s.tasks.entries).map (fun e => e.2), ?_, ?_⟩
  · rw [getTasks_eq]
    rfl
  · rw [List.map_map]
    have hkey : ∀ e ∈ ord.visit s.tasks.entries, (Task.ID ∘ fun e => e.2) e = e.1 := by
      intro e he
      have hmem : e ∈ s.tasks.entries := (ord.perm _).mem_iff.mp he
      obtain ⟨k, t⟩ := e
      exact hinv k t (Option.mem_def.mp (AList.mem_lookup_iff.mpr hmem))
    rw [List.map_congr_left hkey]
    exact (((ord.perm s.tasks.entries).map Sigma.fst).nodup_iff).mpr s.tasks.keys_nodup

theorem reachable_key_eq_id_witness :
    (∀ k t, (run initStore
        [(RangeOrder.stored, ⟨"POST", "/tasks", .object none (some "a") (some true)⟩)]).2.tasks.lookup
          k = some t → t.ID = k) ∧
    ∀ ord : RangeOrder, ∃ l : List Task,
      (getTasks ord (run initStore
        [(RangeOrder.stored, ⟨"POST", "/tasks", .object none (some "a") (some true)⟩)]).2).1.body =
          .jsonArray l ∧ (l.map Task.ID).Nodup :=
  reachable_key_eq_id _ ⟨_, rfl⟩

/-- C8: for every store and every order of iteration, `getTasks` answers 200
    with a JSON array that is a rearrangement of the tasks of the store, one
    per entry of the map: its length is the number of stored tasks, a task is
    in it exactly when it is stored under some key and as many times as it is
    stored; the store and the counter are as before. -/
theorem getTasks_lists_store (ord : RangeOrder) (s : Store) :
    (getTasks ord s).1.status = StatusOK ∧
    (∃ l : List Task,
      (getTasks ord s).1.body = .jsonArray l ∧
      l.Perm s.tasks.values ∧
      l.length = s.tasks.len ∧
      (∀ t, t ∈ l ↔ ∃ k, s.tasks.lookup k = some t) ∧
      (∀ t, l.count t = s.tasks.values.count t)) ∧
    (getTasks ord s).2 = s := by
  rw [getTasks_eq]
  refine ⟨rfl, ⟨_, rfl, ?_, ?_, ?_, ?_⟩, rfl⟩
  · exact (ord.perm s.tasks.entries).map _
  · rw [List.length_map]
    exact (ord.perm s.tasks.entries).length_eq
  · intro t
    constructor
    · intro ht
      obtain ⟨e, he, hte⟩ := List.mem_map.mp ht
      have hmem : e ∈ s.tasks.entries := (ord.perm _).mem_iff.mp he
      obtain ⟨k, t'⟩ := e
      subst hte
      exact ⟨k, Option.mem_def.mp (AList.mem_lookup_iff.mpr hmem)⟩
    · rintro ⟨k, hk⟩
      have hmem : (⟨k, t⟩ : Sigma fun _ : Int => Task) ∈ s.tasks.entries :=
        AList.mem_lookup_iff.mp (Option.mem_def.mpr hk)
      exact List.mem_map.mpr ⟨⟨k, t⟩, (ord.perm _).mem_iff.mpr hmem, rfl⟩
  · intro t
    exact ((ord.perm s.tasks.entries).map _).count_eq t

theorem deleteTask_lookup (s : Store) (i k : Int) :
    (deleteTask s i).2.tasks.lookup k = if k = i then none else s.tasks.lookup k := by
  unfold deleteTask
  split
  · rename_i hnone
    split_ifs with hk
    · rw [hk]; exact hnone
    · rfl
  · split_ifs with hk
    · rw [hk]; exact AList.lookup_erase i s.tasks
    · exact AList.lookup_erase_ne hk

theorem deleteTask_nextID (s : Store) (i : Int) : (deleteTask s i).2.nextID = s.nextID := by
  unfold deleteTask
  split <;> rfl

theorem deleteAll_spec (ids : List Int) :
    ∀ s : Store,
      (deleteAll s ids).nextID = s.nextID ∧
      ∀ k, (deleteAll s ids).tasks.lookup k = if k ∈ ids then none else s.tasks.lookup k := by
  induction ids with
  | nil => intro s; simp [deleteAll]
  | cons i rest ih =>
      intro s
      obtain ⟨hn, hl⟩ := ih (deleteTask s i).2
      refine ⟨by rw [deleteAll, hn, deleteTask_nextID], ?_⟩
      intro k
      rw [deleteAll, hl k, deleteTask_lookup]
      by_cases hr : k ∈ rest
      · simp [hr]
      · by_cases hk : k = i
        · simp [hk]
        · simp [hr, hk]

theorem entries_eq_nil_of_lookup (m : TaskMap) (h : ∀ k, m.lookup k = none) :
    m.entries = [] := by
  cases hm : m.entries with
  | nil => rfl
  | cons e es =>
      obtain ⟨k, t⟩ := e
      have hmem : (⟨k, t⟩ : Sigma fun _ : Int => Task) ∈ m.entries := by
        rw [hm]; exact List.mem_cons_self _ _
      have := Option.mem_def.mp (AList.mem_lookup_iff.mpr hmem)
      rw [h k] at this
      cases this

/-- C9: for every store (reachable or not), once `deleteTask` has been issued
    for a list of ids that covers every key of the map, in any order and
    with any further ids, `getTasks` answers with the empty JSON array, not
    with `null`, and the counter has the value it had before the deletes. -/
theorem getTasks_after_deleting_all (ord : RangeOrder) (s : Store) (ids : List Int)
    (hall : ∀ k ∈ s.tasks.keys, k ∈ ids) :
    (getTasks ord (deleteAll s ids)).1.body = .jsonArray [] ∧
    (getTasks ord (deleteAll s ids)).1.body ≠ .jsonNull ∧
    (getTasks ord (deleteAll s ids)).1.status = StatusOK ∧
    (deleteAll s ids).nextID = s.nextID ∧
    (getTasks ord (deleteAll s ids)).2.nextID = s.nextID := by
  obtain ⟨hn, hl⟩ := deleteAll_spec ids s
  have hempty : (deleteAll s ids).tasks.entries = [] := by
    apply entries_eq_nil_of_lookup
    intro k
    rw [hl k]
    split_ifs with hk
    · rfl
    · by_contra hne
      have hkeys : k ∈ s.tasks.keys := by
        have : k ∈ s.tasks := by
          rw [← AList.lookup_isSome]
          exact Option.ne_none_iff_isSome.mp hne
        exact this
      exact hk (hall k hkeys)
  have hvisit : ord.visit [] = [] := List.Perm.eq_nil (ord.perm [])
  have hbody : (getTasks ord (deleteAll s ids)).1.body = .jsonArray [] := by
    rw [getTasks_eq, hempty, hvisit]
    rfl
  refine ⟨hbody, ?_, ?_, hn, ?_⟩
  · rw [hbody]; simp
  · rw [getTasks_eq]; rfl
  · rw [getTasks_eq]; exact hn

theorem getTasks_after_deleting_all_witness :
    (getTasks RangeOrder.reversed (deleteAll (run initStore
        [(RangeOrder.stored, ⟨"POST", "/tasks", .object none (some "a") (some true)⟩)]).2
        [1, 5, 0])).1.body = .jsonArray [] ∧
    (getTasks RangeOrder.reversed (deleteAll (run initStore
        [(RangeOrder.stored, ⟨"POST", "/tasks", .object none (some "a") (some true)⟩)]).2
        [1, 5, 0])).1.body ≠ .jsonNull ∧
    (getTasks RangeOrder.reversed (deleteAll (run initStore
        [(RangeOrder.stored, ⟨"POST", "/tasks", .object none (some "a") (some true)⟩)]).2
        [1, 5, 0])).1.status = StatusOK ∧
    (deleteAll (run initStore
        [(RangeOrder.stored, ⟨"POST", "/tasks", .object none (some "a") (some true)⟩)]).2
        [1, 5, 0]).nextID = 2 ∧
    (getTasks RangeOrder.reversed (deleteAll (run initStore
        [(RangeOrder.stored, ⟨"POST", "/tasks", .object none (some "a") (some true)⟩)]).2
        [1, 5, 0])).2.nextID = 2 :=
  getTasks_after_deleting_all RangeOrder.reversed (run initStore
    [(RangeOrder.stored, ⟨"POST", "/tasks", .object none (some "a") (some true)⟩)]).2
    [1, 5, 0] (by decide)

/-- C10: for every store and every request body that fails to decode,
    `createTask` answers 400, and `updateTask` on an id that is in the map
    answers 400; both return the store they were given, so no task is added
    or altered and the counter is not incremented. -/
theorem malformed_body_rejected (s : Store) (r : Request) (err : String) (i : Int)
    (hbody : r.body = .malformed err) :
    ((createTask s r).1.status = StatusBadRequest ∧ (createTask s r).2 = s) ∧
    (s.tasks.lookup i ≠ none →
      (updateTask s r i).1.status = StatusBadRequest ∧ (updateTask s r i).2 = s) := by
  constructor
  · have hc : createTask s r = (httpError err StatusBadRequest, s) := by
      simp [createTask, decodeTask, hbody]
    rw [hc]
    exact ⟨rfl, rfl⟩
  · intro hfound
    obtain ⟨old, hold⟩ := Option.ne_none_iff_exists'.mp hfound
    have hu : updateTask s r i = (httpError err StatusBadRequest, s) := by
      simp [updateTask, hold, decodeTask, hbody]
    rw [hu]
    exact ⟨rfl, rfl⟩

theorem malformed_body_rejected_witness :
    ((createTask initStore ⟨"POST", "/tasks", .malformed "EOF"⟩).1.status = StatusBadRequest ∧
      (createTask initStore ⟨"POST", "/tasks", .malformed "EOF"⟩).2 = initStore) ∧
    ((updateTask initStore ⟨"POST", "/tasks", .malformed "EOF"⟩ 0).1.status = StatusBadRequest ∧
      (updateTask initStore ⟨"POST", "/tasks", .malformed "EOF"⟩ 0).2 = initStore) :=
  ⟨(malformed_body_rejected initStore ⟨"POST", "/tasks", .malformed "EOF"⟩ "EOF" 0 rfl).1,
    (malformed_body_rejected initStore ⟨"POST", "/tasks", .malformed "EOF"⟩ "EOF" 0 rfl).2
      (by decide)⟩

/-- C11 as stated fails: two create bodies with the same name and done, one
    without an id and one whose id is the JSON string `"7"`, are answered 201
    and 400, and leave different stores. -/
theorem createTask_id_of_wrong_type :
    (createTask initStore
        ⟨"POST", "/tasks", readBody (.object none (some (.string "a")) (some (.bool false)))⟩).1.status
      = StatusCreated ∧
    (createTask initStore
        ⟨"POST", "/tasks",
          readBody (.object (some (.string "7")) (some (.string "a")) (some (.bool false)))⟩).1.status
      = StatusBadRequest ∧
    createTask initStore
        ⟨"POST", "/tasks", readBody (.object none (some (.string "a")) (some (.bool false)))⟩ ≠
      createTask initStore
        ⟨"POST", "/tasks",
          readBody (.object (some (.string "7")) (some (.string "a")) (some (.bool false)))⟩ := by
  decide

/-- C11, amended: for every store and every two create bodies with the same
    name and done whose id is absent, `null` or an integer in the range of
    `int` (not the same in the two bodies), `createTask` gives the same
    response and the same store; a body whose id holds any other value fails
    to decode: it is answered 400 and the store is returned as it was. -/
theorem createTask_ignores_integer_id (s : Store) :
    (∀ (r₁ r₂ : Request) (id₁ id₂ name done : Option JValue) (i₁ i₂ : Option Int),
      decodeIntField "id" id₁ = .ok i₁ → decodeIntField "id" id₂ = .ok i₂ →
      r₁.body = readBody (.object id₁ name done) →
      r₂.body = readBody (.object id₂ name done) →
      createTask s r₁ = createTask s r₂) ∧
    (∀ (r : Request) (id name done : Option JValue) (err : String),
      decodeIntField "id" id = .error err →
      r.body = readBody (.object id name done) →
      createTask s r = (httpError err StatusBadRequest, s)) := by
  constructor
  · intro r₁ r₂ id₁ id₂ name done i₁ i₂ h₁ h₂ hb₁ hb₂
    unfold createTask
    rw [hb₁, hb₂]
    unfold readBody
    simp only [h₁, h₂]
    cases decodeStringField "name" name with
    | error e => rfl
    | ok n =>
        cases decodeBoolField "done" done with
        | error e => rfl
        | ok d => rfl
  · intro r id name done err h hb
    unfold createTask
    rw [hb]
    unfold readBody
    simp only [h, decodeTask]

theorem createTask_ignores_integer_id_witness :
    createTask initStore
        ⟨"POST", "/tasks", readBody (.object none (some (.string "a")) (some (.bool true)))⟩ =
      createTask initStore
        ⟨"POST", "/tasks",
          readBody (.object (some (.int 42)) (some (.string "a")) (some (.bool true)))⟩ ∧
    createTask initStore
        ⟨"POST", "/tasks",
          readBody (.object (some (.fraction "1.5")) (some (.string "a")) (some (.bool true)))⟩ =
      (httpError "json: cannot unmarshal number 1.5 into Go struct field Task.id of type int"
        StatusBadRequest, initStore) :=
  ⟨(createTask_ignores_integer_id initStore).1 _ _ none (some (.int 42)) (some (.string "a"))
      (some (.bool true)) none (some 42) rfl rfl rfl rfl,
    (createTask_ignores_integer_id initStore).2 _ (some (.fraction "1.5")) (some (.string "a"))
      (some (.bool true)) _ rfl rfl⟩

theorem serve_under_tasks (ord : RangeOrder) (s : Store) (r : Request)
    (hunder : "/tasks/".data.isPrefixOf r.path.data = true) :
    serve ord s r = taskHandler s r := by
  have hne : r.path ≠ "/tasks" := by
    intro h
    rw [h] at hunder
    exact absurd hunder (by decide)
  unfold serve
  rw [if_neg hne, if_pos hunder]

/-- C12: for every store, every method and every path `/tasks/<rest>` whose
    remainder `Atoi` rejects, `taskHandler` answers 400 "Неверный ID" and
    returns the store it was given; the answer is the same for every store
    and every method, the method being looked at only after the parse.  The
    empty remainder, `abc` and `1/2` are such remainders. -/
theorem taskHandler_bad_id :
    (∀ (s : Store) (r : Request), Atoi (idStrOf r.path) = none →
      taskHandler s r = (httpError "Неверный ID" StatusBadRequest, s)) ∧
    (∀ (ord : RangeOrder) (s : Store) (r : Request),
      "/tasks/".data.isPrefixOf r.path.data = true → Atoi (idStrOf r.path) = none →
      serve ord s r = (httpError "Неверный ID" StatusBadRequest, s)) ∧
    Atoi (idStrOf "/tasks/") = none ∧
    Atoi (idStrOf "/tasks/abc") = none ∧
    Atoi (idStrOf "/tasks/1/2") = none := by
  have h : ∀ (s : Store) (r : Request), Atoi (idStrOf r.path) = none →
      taskHandler s r = (httpError "Неверный ID" StatusBadRequest, s) := by
    intro s r hbad
    unfold taskHandler
    rw [hbad]
  refine ⟨h, ?_, by decide, by decide, by decide⟩
  intro ord s r hunder hbad
  rw [serve_under_tasks ord s r hunder]
  exact h s r hbad

theorem taskHandler_bad_id_witness :
    taskHandler initStore ⟨"PATCH", "/tasks/1/2", .malformed "EOF"⟩ =
      (httpError "Неверный ID" StatusBadRequest, initStore) ∧
    serve RangeOrder.stored initStore ⟨"DELETE", "/tasks/", .malformed "EOF"⟩ =
      (httpError "Неверный ID" StatusBadRequest, initStore) :=
  ⟨taskHandler_bad_id.1 initStore ⟨"PATCH", "/tasks/1/2", .malformed "EOF"⟩ (by decide),
    taskHandler_bad_id.2.1 RangeOrder.stored initStore ⟨"DELETE", "/tasks/", .malformed "EOF"⟩
      (by decide) (by decide)⟩

/-- C13: for every store, on `/tasks` a method other than GET and POST, and
    on `/tasks/<id>` with an integer id a method other than GET, PUT and
    DELETE, is answered 405 and the store is returned as it was; GET and POST
    on `/tasks` are `getTasks` and `createTask`, GET, PUT and DELETE on
    `/tasks/<id>` are `getTask`, `updateTask` and `deleteTask` at that id; the
    route table gives `/tasks` to `tasksHandler` and the paths under `/tasks/`
    to `taskHandler`. -/
theorem method_dispatch (ord : RangeOrder) (s : Store) (r : Request) :
    (r.method ≠ MethodGet → r.method ≠ MethodPost →
      tasksHandler ord s r =
        (httpError "Метод не поддерживается" StatusMethodNotAllowed, s)) ∧
    (∀ id, Atoi (idStrOf r.path) = some id →
      r.method ≠ MethodGet → r.method ≠ MethodPut → r.method ≠ MethodDelete →
      taskHandler s r =
        (httpError "Метод не поддерживается" StatusMethodNotAllowed, s)) ∧
    (r.method = MethodGet → tasksHandler ord s r = getTasks ord s) ∧
    (r.method = MethodPost → tasksHandler ord s r = createTask s r) ∧
    (∀ id, Atoi (idStrOf r.path) = some id →
      (r.method = MethodGet → taskHandler s r = getTask s id) ∧
      (r.method = MethodPut → taskHandler s r = updateTask s r id) ∧
      (r.method = MethodDelete → taskHandler s r = deleteTask s id)) ∧
    (r.path = "/tasks" → serve ord s r = tasksHandler ord s r) ∧
    ("/tasks/".data.isPrefixOf r.path.data = true → serve ord s r = taskHandler s r) := by
  refine ⟨?_, ?_, ?_, ?_, ?_, ?_, serve_under_tasks ord s r⟩
  · intro hg hp
    unfold tasksHandler
    rw [if_neg hg, if_neg hp]
  · intro id hid hg hp hd
    unfold taskHandler
    rw [hid]
    simp only [if_neg hg, if_neg hp, if_neg hd]
  · intro hg
    unfold tasksHandler
    rw [if_pos hg]
  · intro hp
    have hg : r.method ≠ MethodGet := by rw [hp]; decide
    unfold tasksHandler
    rw [if_neg hg, if_pos hp]
  · intro id hid
    refine ⟨?_, ?_, ?_⟩
    · intro hg
      unfold taskHandler
      rw [hid]
      simp only [if_pos hg]
    · intro hp
      have hg : r.method ≠ MethodGet := by rw [hp]; decide
      unfold taskHandler
      rw [hid]
      simp only [if_neg hg, if_pos hp]
    · intro hd
      have hg : r.method ≠ MethodGet := by rw [hd]; decide
      have hp : r.method ≠ MethodPut := by rw [hd]; decide
      unfold taskHandler
      rw [hid]
      simp only [if_neg hg, if_neg hp, if_pos hd]
  · intro hpath
    unfold serve
    rw [if_pos hpath]

theorem method_dispatch_witness :
    tasksHandler RangeOrder.stored initStore ⟨"PATCH", "/tasks", .malformed "EOF"⟩ =
      (httpError "Метод не поддерживается" StatusMethodNotAllowed, initStore) ∧
    taskHandler initStore ⟨"POST", "/tasks/0", .malformed "EOF"⟩ =
      (httpError "Метод не поддерживается" StatusMethodNotAllowed, initStore) ∧
    taskHandler initStore ⟨"DELETE", "/tasks/0", .malformed "EOF"⟩ = deleteTask initStore 0 :=
  ⟨(method_dispatch RangeOrder.stored initStore ⟨"PATCH", "/tasks", .malformed "EOF"⟩).1
      (by decide) (by decide),
    (method_dispatch RangeOrder.stored initStore ⟨"POST", "/tasks/0", .malformed "EOF"⟩).2.1 0
      (by decide) (by decide) (by decide) (by decide),
    ((method_dispatch RangeOrder.stored initStore
      ⟨"DELETE", "/tasks/0", .malformed "EOF"⟩).2.2.2.2.1 0 (by decide)).2.2 (by decide)⟩

/-- Left alone between its two critical sections, `updateTask` is the
    sequential handler. -/
theorem updateTaskInterleaved_alone (s : Store) (r : Request) (id : Int) :
    updateTaskInterleaved (fun s => s) s r id = updateTask s r id := by
  unfold updateTaskInterleaved updateTask updateTaskCheck updateTaskWrite
  cases s.tasks.lookup id with
  | none => simp
  | some old =>
      cases decodeTask r.body with
      | error err => simp
      | ok t => simp

/-- C14 fails on the code: `updateTask` gives up the mutex between its check
    and its write.  From the startup state, PUT /tasks/0 with a `deleteTask 0`
    running between the two critical sections: the delete answers 204, the
    update answers 200 and leaves a task under id 0, although in either
    sequential order no task is left under id 0 (update first: the delete
    removes it; delete first: the update answers 404). -/
theorem updateTask_deleteTask_race :
    (deleteTask initStore 0).1.status = StatusNoContent ∧
    (updateTaskInterleaved (fun s => (deleteTask s 0).2) initStore
        ⟨"PUT", "/tasks/0", .object none (some "Go") (some true)⟩ 0).1 =
      jsonResponse StatusOK (.jsonTask ⟨0, "Go", true⟩) ∧
    (updateTaskInterleaved (fun s => (deleteTask s 0).2) initStore
        ⟨"PUT", "/tasks/0", .object none (some "Go") (some true)⟩ 0).2.tasks.lookup 0 =
      some ⟨0, "Go", true⟩ ∧
    (deleteTask (updateTask initStore
        ⟨"PUT", "/tasks/0", .object none (some "Go") (some true)⟩ 0).2 0).2.tasks.lookup 0 =
      none ∧
    (updateTask (deleteTask initStore 0).2
        ⟨"PUT", "/tasks/0", .object none (some "Go") (some true)⟩ 0).1.status =
      StatusNotFound ∧
    (updateTask (deleteTask initStore 0).2
        ⟨"PUT", "/tasks/0", .object none (some "Go") (some true)⟩ 0).2.tasks.lookup 0 =
      none := by
  decide

/-- C15: from the startup state the six requests of the scenario are
    answered, in order, by 201 with task `{1, "Buy milk", false}`; 200 with an
    array made of exactly the task of id 0 and the task of id 1, in the order
    of iteration; 200 with task `{1, "Buy milk", true}`; 204 without a body;
    404; 400. -/
theorem scenario (o₁ o₂ o₃ o₄ o₅ o₆ : RangeOrder) :
    ∃ l : List Task,
      (run initStore
        [(o₁, ⟨"POST", "/tasks",
            readBody (.object none (some (.string "Buy milk")) (some (.bool false)))⟩),
         (o₂, ⟨"GET", "/tasks", .malformed "EOF"⟩),
         (o₃, ⟨"PUT", "/tasks/1",
            readBody (.object none (some (.string "Buy milk")) (some (.bool true)))⟩),
         (o₄, ⟨"DELETE", "/tasks/0", .malformed "EOF"⟩),
         (o₅, ⟨"GET", "/tasks/0", .malformed "EOF"⟩),
         (o₆, ⟨"GET", "/tasks/abc", .malformed "EOF"⟩)]).1.map Prod.snd =
        [jsonResponse StatusCreated (.jsonTask ⟨1, "Buy milk", false⟩),
         jsonResponse StatusOK (.jsonArray l),
         jsonResponse StatusOK (.jsonTask ⟨1, "Buy milk", true⟩),
         { status := StatusNoContent, contentType := none, body := .empty },
         httpError "Задача не найдена" StatusNotFound,
         httpError "Неверный ID" StatusBadRequest] ∧
      l.Perm [⟨0, "Выучить Go", false⟩, ⟨1, "Buy milk", false⟩] := by
  have hlist := getTasks_eq o₂
    { tasks := initStore.tasks.insert 1 ⟨1, "Buy milk", false⟩, nextID := 2 }
  have hrun :
      (run initStore
        [(o₁, ⟨"POST", "/tasks",
            readBody (.object none (some (.string "Buy milk")) (some (.bool false)))⟩),
         (o₂, ⟨"GET", "/tasks", .malformed "EOF"⟩),
         (o₃, ⟨"PUT", "/tasks/1",
            readBody (.object none (some (.string "Buy milk")) (some (.bool true)))⟩),
         (o₄, ⟨"DELETE", "/tasks/0", .malformed "EOF"⟩),
         (o₅, ⟨"GET", "/tasks/0", .malformed "EOF"⟩),
         (o₆, ⟨"GET", "/tasks/abc", .malformed "EOF"⟩)]).1.map Prod.snd =
        [jsonResponse StatusCreated (.jsonTask ⟨1, "Buy milk", false⟩),
         (getTasks o₂
            { tasks := initStore.tasks.insert 1 ⟨1, "Buy milk", false⟩, nextID := 2 }).1,
         jsonResponse StatusOK (.jsonTask ⟨1, "Buy milk", true⟩),
         { status := StatusNoContent, contentType := none, body := .empty },
         httpError "Задача не найдена" StatusNotFound,
         httpError "Неверный ID" StatusBadRequest] := rfl
  refine ⟨(o₂.visit (initStore.tasks.insert 1 ⟨1, "Buy milk", false⟩).entries).map (fun e => e.2),
    ?_, ?_⟩
  · rw [hrun, hlist]
  · have hentries :
        (initStore.tasks.insert 1 ⟨1, "Buy milk", false⟩).entries.map (fun e => e.2) =
          [⟨1, "Buy milk", false⟩, ⟨0, "Выучить Go", false⟩] := by decide
    have hperm := (o₂.perm (initStore.tasks.insert 1 ⟨1, "Buy milk", false⟩).entries).map
      (fun e => e.2)
    rw [hentries] at hperm
    exact hperm.trans (List.Perm.swap _ _ _)

/-- C17: for every store and every id `i`, `deleteTask i` leaves the entry of
    every other id `j` and the counter as they were, whether it answers 204 or
    404, and `getTask i` returns the store it was given, whether it answers
    200 or 404. -/
theorem deleteTask_getTask_frame (s : Store) (i : Int) :
    (∀ j, j ≠ i → (deleteTask s i).2.tasks.lookup j = s.tasks.lookup j) ∧
    (deleteTask s i).2.nextID = s.nextID ∧
    (getTask s i).2 = s ∧
    ((getTask s i).1.status = StatusOK ∨ (getTask s i).1.status = StatusNotFound) := by
  refine ⟨?_, deleteTask_nextID s i, ?_, ?_⟩
  · intro j hj
    rw [deleteTask_lookup, if_neg hj]
  · unfold getTask
    split <;> rfl
  · unfold getTask
    split
    · exact Or.inr rfl
    · exact Or.inl rfl

theorem len_insert_of_lookup (m : TaskMap) (k : Int) (t old : Task)
    (h : m.lookup k = some old) : TaskMap.len (m.insert k t) = TaskMap.len m := by
  have hmem : (⟨k, old⟩ : Sigma fun _ : Int => Task) ∈ m.entries :=
    AList.mem_lookup_iff.mp (Option.mem_def.mpr h)
  have hpos : 0 < m.entries.length := List.length_pos_of_mem hmem
  unfold TaskMap.len
  rw [AList.insert_entries, List.length_cons]
  unfold List.kerase
  rw [List.length_eraseP_of_mem hmem (by simp)]
  omega

/-- C16 as stated fails at two stores.  With the counter at the largest
    `int` a create answers 201 with that id and leaves the counter at the
    smallest `int`, not one higher.  With a task already stored under the
    value of the counter a create answers 201 and puts its task in the place
    of that one: the map holds one task as before, and the task that was
    there is gone. -/
theorem createTask_wraps_and_overwrites :
    (createTask ⟨∅, 9223372036854775807⟩
        ⟨"POST", "/tasks", .object none (some "a") (some false)⟩).1 =
      jsonResponse StatusCreated (.jsonTask ⟨9223372036854775807, "a", false⟩) ∧
    (createTask ⟨∅, 9223372036854775807⟩
        ⟨"POST", "/tasks", .object none (some "a") (some false)⟩).2.nextID =
      -9223372036854775808 ∧
    (createTask ⟨(∅ : TaskMap).insert 1 ⟨1, "old", true⟩, 1⟩
        ⟨"POST", "/tasks", .object none (some "a") (some false)⟩).1 =
      jsonResponse StatusCreated (.jsonTask ⟨1, "a", false⟩) ∧
    (createTask ⟨(∅ : TaskMap).insert 1 ⟨1, "old", true⟩, 1⟩
        ⟨"POST", "/tasks", .object none (some "a") (some false)⟩).2.tasks.len = 1 ∧
    (createTask ⟨(∅ : TaskMap).insert 1 ⟨1, "old", true⟩, 1⟩
        ⟨"POST", "/tasks", .object none (some "a") (some false)⟩).2.tasks.lookup 1 =
      some ⟨1, "a", false⟩ := by
  decide

/-- C16, amended: for every store, a create answered 201 returns a task
    whose id is the counter before the call, stores that task under that id
    and leaves the entry of every other id as it was; the counter is left one
    higher when it was below the largest `int` (at the largest `int` it is
    left at the smallest); the map has one task more when the id was free and
    as many as before when it was taken.  Along every run from the startup
    state in which at most `2^63 - 1` creates succeed, the successful creates
    return 1, 2, 3, ... in this order, the first one the id 1, next to the
    seed task of id 0; and as long as at most `2^63 - 2` creates have
    succeeded the value of the counter is a free id. -/
theorem createTask_assigns_counter :
    (∀ (s : Store) (r : Request), (createTask s r).1.status = StatusCreated →
      ∃ t : Task,
        (createTask s r).1 = jsonResponse StatusCreated (.jsonTask t) ∧
        t.ID = s.nextID ∧
        (createTask s r).2.nextID = wrapInt (s.nextID + 1) ∧
        (minInt ≤ s.nextID → s.nextID < maxInt →
          (createTask s r).2.nextID = s.nextID + 1) ∧
        (s.nextID = maxInt → (createTask s r).2.nextID = minInt) ∧
        (createTask s r).2.tasks.lookup s.nextID = some t ∧
        (∀ j, j ≠ s.nextID → (createTask s r).2.tasks.lookup j = s.tasks.lookup j) ∧
        (s.tasks.lookup s.nextID = none →
          (createTask s r).2.tasks.len = s.tasks.len + 1) ∧
        (s.tasks.lookup s.nextID ≠ none →
          (createTask s r).2.tasks.len = s.tasks.len)) ∧
    (∀ reqs : List (RangeOrder × Request),
      (createdIDs (run initStore reqs).1).length ≤ 9223372036854775807 →
      createdIDs (run initStore reqs).1 =
        (List.range (createdIDs (run initStore reqs).1).length).map
          (fun k : Nat => (k : Int) + 1)) ∧
    (∀ reqs : List (RangeOrder × Request),
      (createdIDs (run initStore reqs).1).length ≤ 9223372036854775806 →
      (run initStore reqs).2.tasks.lookup (run initStore reqs).2.nextID = none) ∧
    initStore.tasks.lookup 0 = some ⟨0, "Выучить Go", false⟩ := by
  have h1 : initStore.nextID = 1 := rfl
  have h2 : maxInt = 9223372036854775807 := rfl
  refine ⟨?_, ?_, ?_, by decide⟩
  · intro s r hok
    cases hdec : decodeTask r.body with
    | error err =>
        have hresp : (createTask s r).1 = httpError err StatusBadRequest := by
          simp [createTask, hdec]
        rw [hresp] at hok
        simp [httpError, StatusBadRequest, StatusCreated] at hok
    | ok t₀ =>
        have hc : createTask s r =
            (jsonResponse StatusCreated (.jsonTask { t₀ with ID := s.nextID }),
              { tasks := s.tasks.insert s.nextID { t₀ with ID := s.nextID },
                nextID := wrapInt (s.nextID + 1) }) := by
          simp [createTask, hdec]
        rw [hc]
        refine ⟨{ t₀ with ID := s.nextID }, rfl, rfl, rfl, ?_, ?_, ?_, ?_, ?_, ?_⟩
        · intro hlo hhi
          exact wrapInt_succ _ hlo hhi
        · intro hmax
          show wrapInt (s.nextID + 1) = minInt
          rw [hmax]
          exact wrapInt_maxInt
        · exact AList.lookup_insert s.tasks
        · intro j hj
          exact AList.lookup_insert_ne hj
        · intro hfree
          have hnot : s.nextID ∉ s.tasks := AList.lookup_eq_none.mp hfree
          show (AList.insert s.nextID _ s.tasks).entries.length = s.tasks.entries.length + 1
          rw [AList.insert_entries_of_neg hnot]
          rfl
        · intro htaken
          obtain ⟨old, hold⟩ := Option.ne_none_iff_exists'.mp htaken
          exact len_insert_of_lookup s.tasks s.nextID _ old hold
  · intro reqs hbound
    have h := (run_bounded reqs initStore (by decide)).1 (by rw [h1, h2]; omega)
    have hfun : (fun k : Nat => initStore.nextID + (k : Int)) = fun k : Nat => (k : Int) + 1 := by
      funext k
      show (1 : Int) + k = k + 1
      ring
    rw [hfun] at h
    exact h
  · intro reqs hbound
    have hinv := ((run_bounded reqs initStore (by decide)).2 (by rw [h1, h2]; omega)).2
      inv_initStore
    cases hl : (run initStore reqs).2.tasks.lookup (run initStore reqs).2.nextID with
    | none => rfl
    | some t => exact absurd (hinv _ t hl).2 (lt_irrefl _)

theorem createTask_assigns_counter_witness :
    ∃ t : Task,
      (createTask initStore ⟨"POST", "/tasks", .object none (some "a") none⟩).1 =
        jsonResponse StatusCreated (.jsonTask t) ∧
      t.ID = initStore.nextID ∧
      (createTask initStore ⟨"POST", "/tasks", .object none (some "a") none⟩).2.nextID =
        wrapInt (initStore.nextID + 1) ∧
      (minInt ≤ initStore.nextID → initStore.nextID < maxInt →
        (createTask initStore ⟨"POST", "/tasks", .object none (some "a") none⟩).2.nextID =
          initStore.nextID + 1) ∧
      (initStore.nextID = maxInt →
        (createTask initStore ⟨"POST", "/tasks", .object none (some "a") none⟩).2.nextID =
          minInt) ∧
      (createTask initStore ⟨"POST", "/tasks", .object none (some "a") none⟩).2.tasks.lookup
        initStore.nextID = some t ∧
      (∀ j, j ≠ initStore.nextID →
        (createTask initStore ⟨"POST", "/tasks", .object none (some "a") none⟩).2.tasks.lookup j =
          initStore.tasks.lookup j) ∧
      (initStore.tasks.lookup initStore.nextID = none →
        (createTask initStore ⟨"POST", "/tasks", .object none (some "a") none⟩).2.tasks.len =
          initStore.tasks.len + 1) ∧
      (initStore.tasks.lookup initStore.nextID ≠ none →
        (createTask initStore ⟨"POST", "/tasks", .object none (some "a") none⟩).2.tasks.len =
          initStore.tasks.len) :=
  createTask_assigns_counter.1 initStore ⟨"POST", "/tasks", .object none (some "a") none⟩
    (by decide)

end RestApi
